import Mathlib

/-!
Verification of the rules.d rule indexing and recommendation engine.

The definitions below are a shallow embedding of the TypeScript sources:
`RuleLoader` (metadata extraction from rule documents) and `RuleAnalyzer`
(corpus queries and bundle recommendation), together with the data model
from `types/rule.ts`.  JavaScript strings are modelled as Lean `String`
(`String.prototype.includes` as substring containment, `toLowerCase` via
`Char.toLower`, ASCII-faithful), JS `undefined`-able fields as `Option`,
and `Array.prototype.sort` (stable since ES2019) as a stable merge sort.
-/

namespace RulesD

/-- `difficulty` field values from the `RuleMetadata` interface. -/
inductive Difficulty where
  | beginner | intermediate | advanced | expert
deriving DecidableEq, Repr

/-- `priority` field values from the `RuleMetadata` interface. -/
inductive Priority where
  | critical | high | medium | low
deriving DecidableEq, Repr

/-- TS `string | string[]` for the `language` field. -/
inductive LangValue where
  | single (s : String)
  | multi (l : List String)
deriving DecidableEq, Repr

/-- One entry of the `references` array of `RuleMetadata`. -/
structure Reference where
  title : String
  url : String
  description : Option String := none
deriving DecidableEq, Repr

/-- The `applicability` object of `RuleMetadata`. -/
structure Applicability where
  scenarios : Option (List String) := none
  frameworks : Option (List String) := none
  environments : Option (List String) := none
deriving DecidableEq, Repr

/-- The `RuleMetadata` interface.  `category` is kept as a `String` because
`inferCategory` computes it from an arbitrary directory-name string. -/
structure RuleMetadata where
  id : String
  title : String
  description : Option String := none
  category : String
  subcategory : Option String := none
  language : LangValue
  tags : List String
  difficulty : Option Difficulty := none
  priority : Option Priority := none
  applicability : Option Applicability := none
  prerequisites : Option (List String) := none
  related : Option (List String) := none
  outcomes : Option (List String) := none
  version : Option String := none
  lastUpdated : Option String := none
  author : Option String := none
  references : Option (List Reference) := none
deriving DecidableEq, Repr

/-- The `Rule` interface: extracted metadata plus body content and path. -/
structure Rule where
  metadata : RuleMetadata
  content : String
  filePath : String
deriving DecidableEq, Repr

/-- The `RuleBundle` interface. -/
structure RuleBundle where
  name : String
  description : String
  rules : List Rule
  scenarios : List String
deriving DecidableEq, Repr

/-- The `ScenarioContext` interface.  The optional string fields are `Option`;
note that `recommendBundle` tests them with JS truthiness, so an explicitly
empty string behaves like an absent field there. -/
structure ScenarioContext where
  type : Option String := none
  language : Option String := none
  framework : Option String := none
  environment : Option String := none
  complexity : Option String := none
  priorities : Option (List String) := none
deriving DecidableEq, Repr

/-- The parsed front-matter header of a document (`gray-matter`'s `parsed.data`),
typed according to the fields `generateMetadata` reads.  `none` models a field
absent from the header. -/
structure Frontmatter where
  id : Option String := none
  title : Option String := none
  description : Option String := none
  category : Option String := none
  subcategory : Option String := none
  language : Option LangValue := none
  tags : Option (List String) := none
  difficulty : Option Difficulty := none
  priority : Option Priority := none
  applicability : Option Applicability := none
  prerequisites : Option (List String) := none
  related : Option (List String) := none
  outcomes : Option (List String) := none
  version : Option String := none
  lastUpdated : Option String := none
  author : Option String := none
  references : Option (List Reference) := none
deriving DecidableEq, Repr

/-- JS `a || b` for an optional string `a`: `undefined` and `""` are falsy. -/
def jsOr (a : Option String) (b : String) : String :=
  match a with
  | some s => if s = "" then b else s
  | none => b

/-- JS `String.prototype.includes`: `sub` occurs contiguously in `s`
(true for the empty needle). -/
def strIncludes (s sub : String) : Bool :=
  (List.range (s.toList.length + 1)).any fun i => sub.toList.isPrefixOf (s.toList.drop i)

/-- Split a character list at every occurrence of `sep`
(structurally recursive model of `String.prototype.split` with a
one-character separator). -/
def splitOnChar (sep : Char) : List Char → List (List Char)
  | [] => [[]]
  | c :: rest =>
    if c = sep then [] :: splitOnChar sep rest
    else
      match splitOnChar sep rest with
      | [] => [[c]]
      | h :: t => (c :: h) :: t

/-- `relativePath.split(path.sep)` with the POSIX separator. -/
def splitPath (p : String) : List String :=
  (splitOnChar '/' p.toList).map String.mk

/-- Split a string into its lines (the `m`-flag segments of the body). -/
def splitLines (s : String) : List String :=
  (splitOnChar '\n' s.toList).map String.mk

/-- JS `String.prototype.toLowerCase` (ASCII, character-wise). -/
def lowerStr (s : String) : String :=
  String.mk (s.toList.map Char.toLower)

/-- The `validCategories` array of `RuleLoader.inferCategory`. -/
def validCategories : List String :=
  ["general", "coding", "writing", "research", "communication",
   "data", "project-management", "security", "devops"]

/-- `RuleLoader.inferCategory`: the directory name if it is a valid category,
else `"general"`. -/
def inferCategory (dirName : String) : String :=
  if validCategories.contains dirName then dirName else "general"

/-- Match one line against the JS regex `^#\s+(.+)$` and return the capture
group (`\s` modelled by `Char.isWhitespace`).  A greedy `\s+` with
backtracking leaves at least one character for `(.+)`. -/
def matchH1 (line : String) : Option String :=
  match line.toList with
  | '#' :: rest =>
    let k := (rest.takeWhile Char.isWhitespace).length
    if k = 0 then none
    else if k < rest.length then some (String.mk (rest.drop k))
    else if 2 ≤ k then some (String.mk (rest.drop (k - 1)))
    else none
  | _ => none

/-- `RuleLoader.extractTitle`: first `# `-heading line of the body, trimmed. -/
def extractTitle (content : String) : Option String :=
  ((splitLines content).findSome? matchH1).map String.trim

/-- `word.charAt(0).toUpperCase() + word.slice(1)` (ASCII `toUpperCase`). -/
def capitalizeWord (w : String) : String :=
  match w.toList with
  | [] => ""
  | c :: cs => String.mk (c.toUpper :: cs)

/-- `RuleLoader.formatTitle`: every hyphen replaced by a space (the global
regex replace is character-wise), split on spaces, each word capitalised,
re-joined. -/
def formatTitle (filename : String) : String :=
  let replaced := String.mk (filename.toList.map fun c => if c = '-' then ' ' else c)
  String.intercalate " " (((splitOnChar ' ' replaced.toList).map String.mk).map capitalizeWord)

/-- The `languageMap` of `RuleLoader.inferLanguage`, in declaration order. -/
def languageMap : List (String × String) :=
  [("python", "python"), ("javascript", "javascript"), ("typescript", "typescript"),
   ("go", "go"), ("rust", "rust"), ("java", "java"),
   ("csharp", "csharp"), ("c#", "csharp")]

/-- `RuleLoader.inferLanguage`: first `languageMap` key found in the lowercased
filename wins (single token); otherwise all keys found in the lowercased body
(a list); otherwise the `"universal"` sentinel. -/
def inferLanguage (filename content : String) : LangValue :=
  match languageMap.find? (fun kv => strIncludes (lowerStr filename) kv.1) with
  | some kv => .single kv.2
  | none =>
    let languages := (languageMap.filter (fun kv => strIncludes (lowerStr content) kv.1)).map (·.2)
    if languages.isEmpty then .single "universal" else .multi languages

/-- The `commonTags` table of `RuleLoader.generateTags`, in declaration order. -/
def commonTags : List (String × List String) :=
  [("performance", ["performance", "optimization"]),
   ("security", ["security"]),
   ("testing", ["testing", "tdd", "unit-tests"]),
   ("accessibility", ["accessibility", "a11y"]),
   ("best-practices", ["best-practices"])]

/-- `Set.prototype.add` on a set represented as an insertion-ordered list. -/
def insertTag (l : List String) (t : String) : List String :=
  if l.contains t then l else l ++ [t]

/-- `RuleLoader.generateTags`: union the tag sets of every `commonTags` keyword
occurring in the lowercased filename or body; fall back to `best-practices`
when nothing matched. -/
def generateTags (filename content : String) : List String :=
  let lowerFilename := lowerStr filename
  let lowerContent := lowerStr content
  let tags := commonTags.foldl
    (fun acc kv =>
      if strIncludes lowerFilename kv.1 || strIncludes lowerContent kv.1 then
        kv.2.foldl insertTag acc
      else acc) []
  if tags = [] then insertTag tags "best-practices" else tags

/-- `path.basename`: the last `/`-separated segment. -/
def pathBasename (p : String) : String :=
  (splitPath p).getLastD ""

/-- `path.basename(filePath, ".md")` drops a trailing `".md"`. -/
def stripMdExt (s : String) : String :=
  if ['.', 'm', 'd'].isSuffixOf s.toList then
    String.mk (s.toList.take (s.toList.length - 3))
  else s

/-- `RuleLoader.generateMetadata`, taking the path of the document relative to
the rules directory (`path.relative(this.rulesDir, filePath)`), the parsed
front-matter, and the body content. -/
def generateMetadata (relativePath : String) (frontmatter : Frontmatter)
    (content : String) : RuleMetadata :=
  let parts := splitPath relativePath
  let category := inferCategory (parts.headD "")
  let filename := stripMdExt (pathBasename relativePath)
  let title := jsOr frontmatter.title (jsOr (extractTitle content) (formatTitle filename))
  let id := jsOr frontmatter.id filename
  let language := inferLanguage filename content
  let tags := match frontmatter.tags with
    | some t => t
    | none => generateTags filename content
  { id := id
    title := title
    description := frontmatter.description
    category := category
    subcategory := frontmatter.subcategory
    language := language
    tags := tags
    difficulty := frontmatter.difficulty
    priority := frontmatter.priority
    applicability := frontmatter.applicability
    prerequisites := frontmatter.prerequisites
    related := frontmatter.related
    outcomes := frontmatter.outcomes
    version := some (jsOr frontmatter.version "1.0.0")
    lastUpdated := frontmatter.lastUpdated
    author := frontmatter.author
    references := frontmatter.references }

/-- The state of a `RuleAnalyzer`: its private `rules` array, populated by
`initialize` in discovery order. -/
structure RuleAnalyzer where
  rules : List Rule
deriving DecidableEq, Repr

/-- `RuleAnalyzer.getAllRules`. -/
def getAllRules (a : RuleAnalyzer) : List Rule :=
  a.rules

/-- `RuleAnalyzer.searchByTags`: rules whose `tags` meet the query tags
(`tags.some(tag => rule.metadata.tags.includes(tag))`). -/
def searchByTags (a : RuleAnalyzer) (tags : List String) : List Rule :=
  a.rules.filter fun rule => tags.any fun tag => rule.metadata.tags.contains tag

/-- The `ruleLangs` normalisation inside `searchByLanguage`:
`Array.isArray(language) ? language : [language]`. -/
def ruleLangs (v : LangValue) : List String :=
  match v with
  | .single s => [s]
  | .multi l => l

/-- `RuleAnalyzer.searchByLanguage`: a rule matches when its language list
contains the query language or the `"universal"` sentinel. -/
def searchByLanguage (a : RuleAnalyzer) (language : String) : List Rule :=
  a.rules.filter fun rule =>
    (ruleLangs rule.metadata.language).contains language ||
      (ruleLangs rule.metadata.language).contains "universal"

/-- `RuleAnalyzer.searchByCategory`: exact category match. -/
def searchByCategory (a : RuleAnalyzer) (category : String) : List Rule :=
  a.rules.filter fun rule => rule.metadata.category = category

/-- The filter inside `deduplicateRules`, carrying the `seen` id set. -/
def dedupAux (seen : List String) : List Rule → List Rule
  | [] => []
  | r :: rs =>
    if seen.contains r.metadata.id then dedupAux seen rs
    else r :: dedupAux (r.metadata.id :: seen) rs

/-- `RuleAnalyzer.deduplicateRules`: keep the first occurrence of each id. -/
def deduplicateRules (rules : List Rule) : List Rule :=
  dedupAux [] rules

/-- The `priorityOrder` rank map of `sortByPriority`. -/
def priorityOrder (p : Priority) : Nat :=
  match p with
  | .critical => 0
  | .high => 1
  | .medium => 2
  | .low => 3

/-- `priorityOrder[rule.metadata.priority || 'medium']`: an absent priority is
ranked as `medium`. -/
def rulePriorityRank (r : Rule) : Nat :=
  priorityOrder (r.metadata.priority.getD .medium)

/-- The comparator of `sortByPriority` as a Boolean `le`. -/
def priorityLE (a b : Rule) : Bool :=
  rulePriorityRank a ≤ rulePriorityRank b

/-- `RuleAnalyzer.sortByPriority`: `Array.prototype.sort` with the rank
comparator; the sort is stable (ES2019), modelled by a stable merge sort. -/
def sortByPriority (rules : List Rule) : List Rule :=
  rules.mergeSort priorityLE

/-- `RuleAnalyzer.generateBundleName`. -/
def generateBundleName (context : ScenarioContext) : String :=
  let parts : List String :=
    (match context.language with
      | some l => if l = "" then [] else [l]
      | none => [])
    ++ (match context.type with
      | some t => if t = "" then [] else [t]
      | none => [])
    ++ (match context.framework with
      | some f => if f = "" then [] else [f]
      | none => [])
  if parts.length > 0 then String.intercalate "-" parts ++ "-bundle" else "custom-bundle"

/-- `RuleAnalyzer.generateBundleDescription`. -/
def generateBundleDescription (context : ScenarioContext) : String :=
  let parts : List String :=
    ["Rules for"]
    ++ (match context.language with
      | some l => if l = "" then [] else [l]
      | none => [])
    ++ (match context.type with
      | some t => if t = "" then [] else [t]
      | none => [])
    ++ (match context.framework with
      | some f => if f = "" then [] else ["using " ++ f]
      | none => [])
    ++ (match context.priorities with
      | some ps =>
        if ps.length > 0 then ["with focus on " ++ String.intercalate ", " ps] else []
      | none => [])
  String.intercalate " " parts

/-- The framework filter of `recommendBundle` step 5:
`rule.metadata.applicability?.frameworks?.includes(framework)`. -/
def frameworkMatches (r : Rule) (framework : String) : Bool :=
  match r.metadata.applicability with
  | some ap =>
    match ap.frameworks with
    | some fs => fs.contains framework
    | none => false
  | none => false

/-- The working list `recommendedRules` accumulated by `recommendBundle`
before deduplication: general rules, then category, language, one block per
requested priority facet in the given order, then framework rules. -/
def recommendWorking (a : RuleAnalyzer) (context : ScenarioContext) : List Rule :=
  searchByCategory a "general"
  ++ (match context.type with
    | some t => if t = "" then [] else searchByCategory a t
    | none => [])
  ++ (match context.language with
    | some l => if l = "" then [] else searchByLanguage a l
    | none => [])
  ++ (match context.priorities with
    | some ps => ps.flatMap fun p => searchByTags a [p]
    | none => [])
  ++ (match context.framework with
    | some f => if f = "" then [] else a.rules.filter fun r => frameworkMatches r f
    | none => [])

/-- The `scenarios` labels accumulated by `recommendBundle`, in push order. -/
def recommendScenarios (context : ScenarioContext) : List String :=
  ["general-ai-operations"]
  ++ (match context.type with
    | some t => if t = "" then [] else [t ++ "-tasks"]
    | none => [])
  ++ (match context.language with
    | some l => if l = "" then [] else [l ++ "-development"]
    | none => [])
  ++ (match context.priorities with
    | some ps => ps.map fun p => p ++ "-focused"
    | none => [])
  ++ (match context.framework with
    | some f => if f = "" then [] else [f ++ "-framework"]
    | none => [])

/-- `RuleAnalyzer.recommendBundle`: union the facet query results, deduplicate
by id, stable-sort by priority rank. -/
def recommendBundle (a : RuleAnalyzer) (context : ScenarioContext) : RuleBundle :=
  { name := generateBundleName context
    description := generateBundleDescription context
    rules := sortByPriority (deduplicateRules (recommendWorking a context))
    scenarios := recommendScenarios context }

/-- `RuleAnalyzer.getCommonBundles`: the six hardcoded scenario contexts fed
through `recommendBundle` against the live index, as an insertion-ordered
key/value record. -/
def getCommonBundles (a : RuleAnalyzer) : List (String × RuleBundle) :=
  [("python-web-development", recommendBundle a
      { type := some "coding", language := some "python",
        priorities := some ["security", "performance"] }),
   ("javascript-frontend", recommendBundle a
      { type := some "coding", language := some "javascript",
        priorities := some ["accessibility", "performance"] }),
   ("api-development", recommendBundle a
      { type := some "coding", priorities := some ["security", "performance"] }),
   ("documentation-writing", recommendBundle a
      { type := some "writing", priorities := some ["accessibility"] }),
   ("data-analysis", recommendBundle a
      { type := some "data", language := some "python" }),
   ("devops-cicd", recommendBundle a
      { type := some "devops", priorities := some ["security"] })]

/-! State-passing variants of the analyzer methods.  Each method is a function
from the receiver state to a result paired with the state after the call;
`recommendBundleM` threads the state through every internal query so that a
mutation anywhere would surface in the final state. -/

/-- `getAllRules` with explicit receiver state. -/
def getAllRulesM (a : RuleAnalyzer) : List Rule × RuleAnalyzer :=
  (a.rules, a)

/-- `searchByTags` with explicit receiver state: `filter` allocates a fresh
array and never reassigns `this.rules`. -/
def searchByTagsM (a : RuleAnalyzer) (tags : List String) : List Rule × RuleAnalyzer :=
  (searchByTags a tags, a)

/-- `searchByLanguage` with explicit receiver state. -/
def searchByLanguageM (a : RuleAnalyzer) (language : String) : List Rule × RuleAnalyzer :=
  (searchByLanguage a language, a)

/-- `searchByCategory` with explicit receiver state. -/
def searchByCategoryM (a : RuleAnalyzer) (category : String) : List Rule × RuleAnalyzer :=
  (searchByCategory a category, a)

/-- The priority-facet loop of `recommendBundle`, threading the receiver state
through each `searchByTags` call. -/
def prioritiesLoopM (ps : List String) (acc : List Rule) (a : RuleAnalyzer) :
    List Rule × RuleAnalyzer :=
  ps.foldl
    (fun st p =>
      let q := searchByTagsM st.2 [p]
      (st.1 ++ q.1, q.2))
    (acc, a)

/-- `recommendBundle` with explicit receiver state: each internal query runs
against the state left by the previous one.  `deduplicateRules` builds a fresh
array via `filter`, and the in-place `sort` of `sortByPriority` is applied to
that fresh array, never to `this.rules`. -/
def recommendBundleM (a0 : RuleAnalyzer) (context : ScenarioContext) :
    RuleBundle × RuleAnalyzer :=
  let s1 := searchByCategoryM a0 "general"
  let s2 := match context.type with
    | some t => if t = "" then ([], s1.2) else searchByCategoryM s1.2 t
    | none => ([], s1.2)
  let s3 := match context.language with
    | some l => if l = "" then ([], s2.2) else searchByLanguageM s2.2 l
    | none => ([], s2.2)
  let s4 := match context.priorities with
    | some ps => prioritiesLoopM ps [] s3.2
    | none => ([], s3.2)
  let s5 := match context.framework with
    | some f =>
      if f = "" then ([], s4.2)
      else ((s4.2.rules.filter fun r => frameworkMatches r f), s4.2)
    | none => ([], s4.2)
  let working := s1.1 ++ s2.1 ++ s3.1 ++ s4.1 ++ s5.1
  ({ name := generateBundleName context
     description := generateBundleDescription context
     rules := sortByPriority (deduplicateRules working)
     scenarios := recommendScenarios context }, s5.2)

/-- A concrete loaded rule (no front-matter, no keyword matches), used to
exercise the lemmas on explicit input. -/
def sampleRule : Rule :=
  { metadata := generateMetadata "general/task-rules.md" {} "Follow the rules."
    content := "Follow the rules."
    filePath := "general/task-rules.md" }

/-- A one-rule corpus. -/
def sampleAnalyzer : RuleAnalyzer :=
  { rules := [sampleRule] }

/-! ### Helper lemmas about deduplication -/

/-- `dedupAux` only depends on the membership content of the `seen` set. -/
theorem dedupAux_congr : ∀ (l : List Rule) {seen seen' : List String},
    (∀ s : String, seen.contains s = seen'.contains s) →
    dedupAux seen l = dedupAux seen' l
  | [], _, _, _ => rfl
  | r :: rs, seen, seen', h => by
    simp only [dedupAux, h r.metadata.id]
    split
    · exact dedupAux_congr rs h
    · have h' : ∀ s : String,
          (r.metadata.id :: seen).contains s = (r.metadata.id :: seen').contains s := by
        intro s
        simp only [List.contains_cons]
        rw [h s]
      rw [dedupAux_congr rs h']

/-- Deduplication returns a sublist of its input (relative order preserved). -/
theorem dedupAux_sublist : ∀ (seen : List String) (l : List Rule),
    List.Sublist (dedupAux seen l) l
  | _, [] => List.Sublist.refl []
  | seen, r :: rs => by
    simp only [dedupAux]
    split
    · exact (dedupAux_sublist seen rs).cons r
    · exact (dedupAux_sublist _ rs).cons₂ r

/-- No rule surviving deduplication has an id in the `seen` set. -/
theorem dedupAux_not_seen : ∀ (seen : List String) (l : List Rule) (r : Rule),
    r ∈ dedupAux seen l → seen.contains r.metadata.id = false
  | _, [], _, hmem => by simp [dedupAux] at hmem
  | seen, x :: xs, r, hmem => by
    revert hmem
    simp only [dedupAux]
    split
    · exact dedupAux_not_seen seen xs r
    · rename_i hx
      intro hmem
      rcases List.mem_cons.mp hmem with h | h
      · rw [h]
        exact Bool.eq_false_iff.mpr hx
      · have h2 := dedupAux_not_seen _ xs r h
        simp only [List.contains_cons, Bool.or_eq_false_iff] at h2
        exact h2.2

/-- The ids surviving deduplication are pairwise distinct. -/
theorem dedupAux_nodup : ∀ (seen : List String) (l : List Rule),
    ((dedupAux seen l).map (fun r => r.metadata.id)).Nodup
  | _, [] => List.nodup_nil
  | seen, x :: xs => by
    simp only [dedupAux]
    split
    · exact dedupAux_nodup seen xs
    · simp only [List.map_cons, List.nodup_cons]
      refine ⟨?_, dedupAux_nodup _ xs⟩
      intro hmem
      rcases List.mem_map.mp hmem with ⟨r, hr, hid⟩
      have h2 := dedupAux_not_seen _ xs r hr
      rw [hid] at h2
      simp [List.contains_cons] at h2

/-- Marking an id as seen is the same as filtering out its occurrences. -/
theorem dedupAux_filter : ∀ (l : List Rule) (x : String) (seen : List String),
    dedupAux (x :: seen) l = dedupAux seen (l.filter fun e => e.metadata.id != x)
  | [], _, _ => rfl
  | e :: rs, x, seen => by
    simp only [List.filter_cons]
    by_cases hx : e.metadata.id = x
    · have h1 : (e.metadata.id != x) = false := by simp [hx]
      rw [h1]
      simp only [Bool.false_eq_true, if_false]
      have h2 : (x :: seen).contains e.metadata.id = true := by
        simp [List.contains_cons, hx]
      simp only [dedupAux, h2, if_true]
      exact dedupAux_filter rs x seen
    · have h1 : (e.metadata.id != x) = true := by simp [hx]
      rw [h1]
      simp only [if_true]
      have h2 : (x :: seen).contains e.metadata.id = seen.contains e.metadata.id := by
        simp only [List.contains_cons]
        have hne : (e.metadata.id == x) = false := by simp [hx]
        rw [hne, Bool.false_or]
      simp only [dedupAux, h2]
      by_cases hs : seen.contains e.metadata.id = true
      · simp only [hs, if_true]
        exact dedupAux_filter rs x seen
      · simp only [hs, if_false]
        have hswap : ∀ s : String,
            (e.metadata.id :: x :: seen).contains s =
              (x :: e.metadata.id :: seen).contains s := by
          intro s
          simp only [List.contains_cons]
          rw [Bool.or_left_comm]
        rw [dedupAux_congr rs hswap, dedupAux_filter rs x (e.metadata.id :: seen)]
        simp

/-! ### Helper lemmas about the priority sort -/

/-- The rank comparator is transitive. -/
theorem priorityLE_trans (a b c : Rule) :
    priorityLE a b → priorityLE b c → priorityLE a c := by
  simp only [priorityLE, decide_eq_true_eq]
  omega

/-- The rank comparator is total. -/
theorem priorityLE_total (a b : Rule) : priorityLE a b || priorityLE b a := by
  simp only [priorityLE, Bool.or_eq_true, decide_eq_true_eq]
  omega

/-- Sorting permutes its input. -/
theorem sortByPriority_perm (l : List Rule) : List.Perm (sortByPriority l) l :=
  List.mergeSort_perm l priorityLE

/-- The output of `sortByPriority` is nondecreasing in priority rank. -/
theorem sortByPriority_pairwise (l : List Rule) :
    (sortByPriority l).Pairwise fun x y => rulePriorityRank x ≤ rulePriorityRank y := by
  have h : (List.mergeSort l priorityLE).Pairwise fun x y => priorityLE x y = true :=
    List.sorted_mergeSort (fun a b c => priorityLE_trans a b c)
      (fun a b => priorityLE_total a b) l
  exact h.imp fun hxy => by simpa [priorityLE] using hxy

/-- Stability of `sortByPriority`: the rules of any single rank keep exactly
the relative order they had in the input. -/
theorem sortByPriority_filter_rank (l : List Rule) (k : Nat) :
    (sortByPriority l).filter (fun r => rulePriorityRank r == k) =
      l.filter (fun r => rulePriorityRank r == k) := by
  have hpw : (l.filter (fun r => rulePriorityRank r == k)).Pairwise
      fun x y => priorityLE x y = true := by
    apply List.pairwise_of_forall_mem_list
    intro x hx y hy
    have hx' := (List.mem_filter.mp hx).2
    have hy' := (List.mem_filter.mp hy).2
    simp only [beq_iff_eq] at hx' hy'
    simp [priorityLE, hx', hy']
  have hsub : List.Sublist (l.filter (fun r => rulePriorityRank r == k)) (sortByPriority l) :=
    List.sublist_mergeSort (fun a b c => priorityLE_trans a b c)
      (fun a b => priorityLE_total a b) hpw (List.filter_sublist l)
  have hsub2 : List.Sublist (l.filter (fun r => rulePriorityRank r == k))
      ((sortByPriority l).filter (fun r => rulePriorityRank r == k)) := by
    have h := hsub.filter (fun r => rulePriorityRank r == k)
    rwa [List.filter_filter, (by funext r; simp : (fun r =>
      (rulePriorityRank r == k) && (rulePriorityRank r == k)) = fun r =>
      (rulePriorityRank r == k))] at h
  have hlen : ((sortByPriority l).filter (fun r => rulePriorityRank r == k)).length =
      (l.filter (fun r => rulePriorityRank r == k)).length :=
    ((sortByPriority_perm l).filter _).length_eq
  exact (hsub2.eq_of_length hlen.symm).symm

/-- The priority-facet loop leaves the receiver state untouched. -/
theorem prioritiesLoopM_state : ∀ (ps : List String) (acc : List Rule) (a : RuleAnalyzer),
    (prioritiesLoopM ps acc a).2 = a
  | [], _, _ => rfl
  | p :: ps, acc, a => prioritiesLoopM_state ps (acc ++ searchByTags a [p]) a

/-! ### Helper lemmas about tag generation -/

/-- `generateTags` never returns an empty list: when the keyword scan yields
nothing, the `best-practices` fallback is injected. -/
theorem generateTags_ne_nil (filename content : String) :
    generateTags filename content ≠ [] := by
  have h : ∀ tags : List String,
      (if tags = [] then insertTag tags "best-practices" else tags) ≠ [] := by
    intro tags
    split
    · simp_all [insertTag]
    · assumption
  exact h _

/-- When no `commonTags` keyword occurs in the lowercased filename or body,
`generateTags` returns exactly the fallback tag. -/
theorem generateTags_of_no_keyword {filename content : String}
    (h : ∀ kv ∈ commonTags,
        strIncludes (lowerStr filename) kv.1 = false ∧
        strIncludes (lowerStr content) kv.1 = false) :
    generateTags filename content = ["best-practices"] := by
  have h1 := h ("performance", ["performance", "optimization"]) (by simp [commonTags])
  have h2 := h ("security", ["security"]) (by simp [commonTags])
  have h3 := h ("testing", ["testing", "tdd", "unit-tests"]) (by simp [commonTags])
  have h4 := h ("accessibility", ["accessibility", "a11y"]) (by simp [commonTags])
  have h5 := h ("best-practices", ["best-practices"]) (by simp [commonTags])
  simp [generateTags, commonTags, h1.1, h1.2, h2.1, h2.2, h3.1, h3.2,
    h4.1, h4.2, h5.1, h5.2, insertTag]

/-! ### Claims -/

/-- C1, counterexample: a document at `docs/api-rules.md` whose header declares
`category: coding` is extracted with category `general`, not `coding` — the
header's `category` field is ignored by `generateMetadata`. -/
theorem c1_counterexample :
    ({ category := some "coding" } : Frontmatter).category = some "coding" ∧
    (generateMetadata "docs/api-rules.md" { category := some "coding" } "body").category
      = "general" ∧
    (generateMetadata "docs/api-rules.md" { category := some "coding" } "body").category
      ≠ "coding" :=
  ⟨rfl, by decide, by decide⟩

/-- C1 (amended): for every document, the extracted `category` equals the
first path segment when that segment is in the closed 9-element category set
and `general` otherwise; a header-declared `category` field is ignored (the
extracted category is independent of the front-matter and the body). -/
theorem c1_category_from_path (relativePath : String) (fm fm' : Frontmatter)
    (content content' : String) :
    (generateMetadata relativePath fm content).category =
      (if validCategories.contains ((splitPath relativePath).headD "") then
        (splitPath relativePath).headD "" else "general") ∧
    (generateMetadata relativePath fm content).category =
      (generateMetadata relativePath fm' content').category :=
  ⟨rfl, rfl⟩

/-- C2, counterexample: a document whose header explicitly declares an empty
`tags` array is loaded with an empty tags set — the JS `frontmatter.tags ||`
fallback does not fire on a present-but-empty array, so "for every loaded
Rule, tags is non-empty" fails. -/
theorem c2_counterexample :
    ({ tags := some [] } : Frontmatter).tags = some [] ∧
    (generateMetadata "general/task-rules.md" { tags := some [] } "content").tags = [] :=
  ⟨rfl, rfl⟩

/-- C2 (amended): for every document whose header declares no `tags` field,
the extracted `tags` are non-empty, and if additionally no keyword of the
fixed `commonTags` table occurs in the lowercased filename or body, the
extracted `tags` equal exactly `["best-practices"]`. -/
theorem c2_tags_fallback (relativePath : String) (fm : Frontmatter) (content : String)
    (hnone : fm.tags = none) :
    (generateMetadata relativePath fm content).tags ≠ [] ∧
    ((∀ kv ∈ commonTags,
        strIncludes (lowerStr (stripMdExt (pathBasename relativePath))) kv.1 = false ∧
        strIncludes (lowerStr content) kv.1 = false) →
      (generateMetadata relativePath fm content).tags = ["best-practices"]) := by
  have htags : (generateMetadata relativePath fm content).tags =
      generateTags (stripMdExt (pathBasename relativePath)) content := by
    simp [generateMetadata, hnone]
  rw [htags]
  exact ⟨generateTags_ne_nil _ _, fun h => generateTags_of_no_keyword h⟩

/-- C2, witness: a concrete keyword-free document with no front-matter is
extracted with exactly the fallback tag. -/
theorem c2_tags_fallback_witness :
    ({} : Frontmatter).tags = none ∧
    (generateMetadata "general/task-rules.md" {} "Follow the rules.").tags
      = ["best-practices"] :=
  ⟨rfl, (c2_tags_fallback "general/task-rules.md" {} "Follow the rules." rfl).2 (by decide)⟩

/-- C3: for every scenario context, the bundle's `rules` are the stable sort
of the id-deduplicated working list; the resulting ids are pairwise distinct;
deduplication returns a sublist of the working list (first occurrences, in
order), and satisfies the first-occurrence recursion: the head is kept and
all later rules with the same id are dropped. -/
theorem c3_bundle_dedup (a : RuleAnalyzer) (ctx : ScenarioContext) :
    (recommendBundle a ctx).rules =
      sortByPriority (deduplicateRules (recommendWorking a ctx)) ∧
    ((recommendBundle a ctx).rules.map (fun r => r.metadata.id)).Nodup ∧
    List.Sublist (deduplicateRules (recommendWorking a ctx)) (recommendWorking a ctx) ∧
    ∀ (r : Rule) (rs : List Rule),
      deduplicateRules (r :: rs) =
        r :: deduplicateRules (rs.filter fun x => x.metadata.id != r.metadata.id) := by
  refine ⟨rfl, ?_, dedupAux_sublist [] _, ?_⟩
  · have hnd := dedupAux_nodup [] (recommendWorking a ctx)
    have hperm := (sortByPriority_perm (deduplicateRules (recommendWorking a ctx))).symm.map
      (fun r => r.metadata.id)
    exact hperm.nodup hnd
  · intro r rs
    show dedupAux [] (r :: rs) = _
    simp only [dedupAux, List.contains_nil, Bool.false_eq_true, if_false]
    rw [dedupAux_filter rs r.metadata.id []]
    rfl

/-- C4: for every scenario context, the bundle's `rules` are nondecreasing in
priority rank (critical=0, high=1, medium=2, low=3, a missing priority ranked
as medium), and the sort is stable: within each rank the rules keep exactly
the order of the deduplicated working list (first-appended order). -/
theorem c4_bundle_priority_sorted (a : RuleAnalyzer) (ctx : ScenarioContext) :
    (recommendBundle a ctx).rules.Pairwise
      (fun x y => rulePriorityRank x ≤ rulePriorityRank y) ∧
    ∀ k : Nat,
      (recommendBundle a ctx).rules.filter (fun r => rulePriorityRank r == k) =
        (deduplicateRules (recommendWorking a ctx)).filter
          (fun r => rulePriorityRank r == k) :=
  ⟨sortByPriority_pairwise _, fun k => sortByPriority_filter_rank _ k⟩

/-- C5, counterexample: a document with no `priority` header field is
extracted with `priority` unset (`none`), not with the value `medium` — the
medium default is not applied at extraction time. -/
theorem c5_counterexample :
    ({} : Frontmatter).priority = none ∧
    (generateMetadata "coding/python-rules.md" {} "Use Python.").priority = none ∧
    (generateMetadata "coding/python-rules.md" {} "Use Python.").priority
      ≠ some Priority.medium :=
  ⟨rfl, rfl, by decide⟩

/-- C5 (amended): extraction passes `priority` through verbatim, so a document
with no `priority` header yields metadata with `priority` unset; the `medium`
default is applied at sort time instead: a rule with unset priority is ranked
exactly as a `medium` rule by `sortByPriority`'s rank map. -/
theorem c5_priority_default (relativePath : String) (fm : Frontmatter)
    (content : String) (r : Rule) :
    (fm.priority = none → (generateMetadata relativePath fm content).priority = none) ∧
    (r.metadata.priority = none →
      rulePriorityRank r = priorityOrder Priority.medium) := by
  constructor
  · intro h
    simp [generateMetadata, h]
  · intro h
    simp [rulePriorityRank, h]

/-- C5, witness: the concrete header-less document has unset priority, and the
concrete priority-less rule is ranked as medium. -/
theorem c5_priority_default_witness :
    (generateMetadata "coding/python-rules.md" {} "Use Python.").priority = none ∧
    rulePriorityRank sampleRule = priorityOrder Priority.medium := by
  have h := c5_priority_default "coding/python-rules.md" {} "Use Python." sampleRule
  exact ⟨h.1 rfl, h.2 (by decide)⟩

/-- C6: for every index, query language L and rule r, `searchByLanguage L`
includes r exactly when r is in the index and L is a member of r's language
value/set or that value/set contains the `universal` sentinel; in particular
a rule whose language is `universal` is included for every L. -/
theorem c6_universal_language (a : RuleAnalyzer) (L : String) (r : Rule) :
    r ∈ searchByLanguage a L ↔
      r ∈ a.rules ∧
        (L ∈ ruleLangs r.metadata.language ∨
          "universal" ∈ ruleLangs r.metadata.language) := by
  simp [searchByLanguage, List.mem_filter, List.elem_iff]

/-- C7, counterexample: `version` is not passed through verbatim-or-unset: a
document whose header declares no `version` is extracted with
`version = "1.0.0"`, so the claim's field list is wrong about `version`. -/
theorem c7_counterexample :
    ({} : Frontmatter).version = none ∧
    (generateMetadata "coding/python-rules.md" {} "Use Python.").version = some "1.0.0" :=
  ⟨rfl, rfl⟩

/-- C7 (amended): every optional metadata field other than the inferred ones —
description, subcategory, difficulty, priority, applicability, prerequisites,
related, outcomes, lastUpdated, author, references — is taken verbatim from
the header and left unset when absent; `version`, however, is defaulted to
`"1.0.0"` when the header does not declare it (or declares an empty string). -/
theorem c7_optional_passthrough (relativePath : String) (fm : Frontmatter)
    (content : String) :
    (generateMetadata relativePath fm content).description = fm.description ∧
    (generateMetadata relativePath fm content).subcategory = fm.subcategory ∧
    (generateMetadata relativePath fm content).difficulty = fm.difficulty ∧
    (generateMetadata relativePath fm content).priority = fm.priority ∧
    (generateMetadata relativePath fm content).applicability = fm.applicability ∧
    (generateMetadata relativePath fm content).prerequisites = fm.prerequisites ∧
    (generateMetadata relativePath fm content).related = fm.related ∧
    (generateMetadata relativePath fm content).outcomes = fm.outcomes ∧
    (generateMetadata relativePath fm content).lastUpdated = fm.lastUpdated ∧
    (generateMetadata relativePath fm content).author = fm.author ∧
    (generateMetadata relativePath fm content).references = fm.references ∧
    (generateMetadata relativePath fm content).version = some (jsOr fm.version "1.0.0") :=
  ⟨rfl, rfl, rfl, rfl, rfl, rfl, rfl, rfl, rfl, rfl, rfl, rfl⟩

/-- C8: the query and recommendation operations leave the index unchanged:
with the receiver state threaded explicitly through every internal query,
`recommendBundleM`, `getAllRulesM`, `searchByCategoryM`, `searchByLanguageM`
and `searchByTagsM` all return the state they were given. -/
theorem c8_frame_immutable (a : RuleAnalyzer) (ctx : ScenarioContext)
    (cat lang : String) (tags : List String) :
    (recommendBundleM a ctx).2 = a ∧
    (getAllRulesM a).2 = a ∧
    (searchByCategoryM a cat).2 = a ∧
    (searchByLanguageM a lang).2 = a ∧
    (searchByTagsM a tags).2 = a := by
  refine ⟨?_, rfl, rfl, rfl, rfl⟩
  rcases ctx with ⟨t, l, f, e, c, p⟩
  simp only [recommendBundleM, searchByCategoryM, searchByLanguageM, searchByTagsM]
  cases t <;> cases l <;> cases f <;> cases p <;>
    simp [prioritiesLoopM_state] <;> split_ifs <;> rfl

/-- C9: `searchByTags` returns, in index order, exactly the rules whose tag
set meets the query tags (OR semantics): the result is a sublist of the index,
membership holds iff some query tag is among the rule's tags, the empty query
returns the empty list, and a query meeting no rule's tags returns the empty
list. -/
theorem c9_tags_or_semantics (a : RuleAnalyzer) (T : List String) :
    List.Sublist (searchByTags a T) a.rules ∧
    (∀ r : Rule, r ∈ searchByTags a T ↔ r ∈ a.rules ∧ ∃ t ∈ T, t ∈ r.metadata.tags) ∧
    searchByTags a [] = [] ∧
    ((∀ r ∈ a.rules, ∀ t ∈ T, t ∉ r.metadata.tags) → searchByTags a T = []) := by
  have hmem : ∀ r : Rule, r ∈ searchByTags a T ↔
      r ∈ a.rules ∧ ∃ t ∈ T, t ∈ r.metadata.tags := by
    intro r
    simp [searchByTags, List.mem_filter, List.any_eq_true, List.elem_iff]
  refine ⟨List.filter_sublist a.rules, hmem, by simp [searchByTags], ?_⟩
  intro h
  apply List.eq_nil_iff_forall_not_mem.mpr
  intro r hr
  rcases (hmem r).mp hr with ⟨hrules, t, ht, htag⟩
  exact h r hrules t ht htag

/-- C9, witness: querying a concrete one-rule corpus for a tag no rule
carries returns the empty list. -/
theorem c9_tags_or_semantics_witness :
    searchByTags sampleAnalyzer ["nonexistent-tag"] = [] :=
  (c9_tags_or_semantics sampleAnalyzer ["nonexistent-tag"]).2.2.2 (by decide)

/-- C10: `getCommonBundles` returns exactly six entries, keyed
python-web-development, javascript-frontend, api-development,
documentation-writing, data-analysis and devops-cicd, each value being
`recommendBundle` applied to that key's fixed hardcoded scenario context
against the index at call time. -/
theorem c10_common_bundles (a : RuleAnalyzer) :
    getCommonBundles a =
      [("python-web-development", recommendBundle a
          { type := some "coding", language := some "python",
            priorities := some ["security", "performance"] }),
       ("javascript-frontend", recommendBundle a
          { type := some "coding", language := some "javascript",
            priorities := some ["accessibility", "performance"] }),
       ("api-development", recommendBundle a
          { type := some "coding", priorities := some ["security", "performance"] }),
       ("documentation-writing", recommendBundle a
          { type := some "writing", priorities := some ["accessibility"] }),
       ("data-analysis", recommendBundle a
          { type := some "data", language := some "python" }),
       ("devops-cicd", recommendBundle a
          { type := some "devops", priorities := some ["security"] })] ∧
    (getCommonBundles a).map Prod.fst =
      ["python-web-development", "javascript-frontend", "api-development",
       "documentation-writing", "data-analysis", "devops-cicd"] ∧
    (getCommonBundles a).length = 6 :=
  ⟨rfl, rfl, rfl⟩

end RulesD
